import Mathlib

/-!
Verification of the request/response correlation engine of
mcp-communicator-telegram (src/index.ts).

The engine's mutable state (a JS Map of pending questions and a
single-slot last-question id), the inbound-message handler
`handleMessage`, the `ask_user` tool body, and the `zipProject`
utility are shallowly embedded below, translated statement by
statement from src/index.ts.
-/

namespace Telegram

/-! ## A model of the JS Map used for pendingQuestions

`pendingQuestions = new Map<string, (answer: string) => void>()`.
Resolver closures are modelled by opaque numeric tokens handed out by
a counter, so that invocations of distinct resolvers can be told
apart.  An association list with unique keys models the Map;
`mapSet` overwrites in place, `mapDelete` removes the entry,
`mapHas`/`mapGet` look up. -/

def mapGet (k : String) : List (String × Nat) → Option Nat
  | [] => none
  | p :: m => if p.1 = k then some p.2 else mapGet k m

def mapHas (k : String) (m : List (String × Nat)) : Bool :=
  (mapGet k m).isSome

def mapSet (k : String) (v : Nat) : List (String × Nat) → List (String × Nat)
  | [] => [(k, v)]
  | p :: m => if p.1 = k then (k, v) :: m else p :: mapSet k v m

/-- `pendingQuestions.delete(k)`.  A JS Map's keys are unique, so on
the lists that model reachable Map states removing every entry with
key `k` removes exactly the one entry the Map holds for `k`. -/
def mapDelete (k : String) (m : List (String × Nat)) : List (String × Nat) :=
  m.filter (fun p => !(p.1 = k))

/-! ## The marker pattern

`msg.reply_to_message.text.match(/#([a-z0-9]+)\n/)`: the leftmost
occurrence of a hash sign followed by a non-empty run of lowercase
letters or digits followed by a newline; the captured group is the
run.  `scanMarker` walks the character list position by position,
exactly as the regex engine attempts a match at each successive
index (a greedy run that is not followed by a newline cannot succeed
at that index under any backtracking, because every shorter run is
followed by another id character, so the scan moves on one position). -/

def isIdChar (c : Char) : Bool :=
  ('a' ≤ c && c ≤ 'z') || ('0' ≤ c && c ≤ '9')

def scanMarkerAux : List Char → Option String
  | [] => none
  | c :: rest =>
      if c = '#' then
        if rest.takeWhile isIdChar ≠ [] ∧
            (rest.dropWhile isIdChar).head? = some '\n' then
          some (String.mk (rest.takeWhile isIdChar))
        else scanMarkerAux rest
      else scanMarkerAux rest

def scanMarker (s : String) : Option String :=
  scanMarkerAux s.data

/-! ## Engine state and inbound messages -/

structure EngineState where
  pendingQuestions : List (String × Nat)
  lastQuestionId : Option String
  nextResolver : Nat
  deriving Repr, DecidableEq

def initState : EngineState :=
  { pendingQuestions := [], lastQuestionId := none, nextResolver := 0 }

/-- An inbound Telegram message as `handleMessage` sees it:
`msg.chat.id.toString()`, the optional `msg.text`, and the optional
`msg.reply_to_message?.text`. -/
structure Message where
  chatId : String
  text : Option String
  replyToText : Option String
  deriving Repr, DecidableEq

/-- The correlation id `handleMessage` extracts from the quoted text,
if any: present and matching the marker pattern.  (An absent or empty
`reply_to_message.text` is falsy in JS, so the match block is
skipped; `scanMarker` of the empty string is `none`, so testing
emptiness separately is unnecessary.) -/
def replyQuestionId (msg : Message) : Option String :=
  match msg.replyToText with
  | some rt => scanMarker rt
  | none => none

/-- Result of one `handleMessage` call: the successor state, and the
resolution it performed, if any: resolved question id, resolver
token invoked, and the answer text it was invoked with. -/
structure HandleResult where
  state : EngineState
  resolved : Option (String × Nat × String)
  deriving Repr, DecidableEq

/-- Lines 49-60: `let questionId = null; if (reply marker) questionId
= match; if (!questionId) questionId = lastQuestionId`. -/
def targetId (st : EngineState) (msg : Message) : Option String :=
  match replyQuestionId msg with
  | some q => some q
  | none => st.lastQuestionId

/-- Shallow embedding of `handleMessage` (src/index.ts lines 36-75).
Rejects a message from the wrong chat or with absent/empty text
(`!msg.text` is true on both); determines the target id from the
quoted-text marker, falling back to `lastQuestionId`; if the target
id is truthy (non-empty) and present in the map, invokes and removes
that resolver and unconditionally nulls `lastQuestionId` (line 70);
otherwise discards the message. -/
def handleMessage (validatedChatId : String) (st : EngineState)
    (msg : Message) : HandleResult :=
  match msg.text with
  | none => { state := st, resolved := none }
  | some text =>
    if msg.chatId ≠ validatedChatId ∨ text = "" then
      { state := st, resolved := none }
    else
      match targetId st msg with
      | some q =>
        if q ≠ "" then
          match mapGet q st.pendingQuestions with
          | some resolver =>
            { state :=
                { pendingQuestions := mapDelete q st.pendingQuestions
                  lastQuestionId := none
                  nextResolver := st.nextResolver }
              resolved := some (q, resolver, text) }
          | none => { state := st, resolved := none }
        else { state := st, resolved := none }
      | none => { state := st, resolved := none }

/-! ## Correlation id generation

`const questionId = Math.random().toString(36).substring(7)`.
A double drawn by `Math.random()` lies in [0,1) and is a binary
fraction, so its base-36 fractional expansion is finite; the draw is
modelled by that expansion, a list of base-36 digits with no
trailing zero (the canonical form `toString(36)` prints).
`toString(36)` renders the value as the string composed of a zero, a
point and the lowercase base-36 digit characters (just the zero when
the list is empty, i.e. the draw was 0), and `.substring(7)` drops
the first seven characters. -/

def base36Char (d : Fin 36) : Char :=
  if d.val < 10 then Char.ofNat (48 + d.val) else Char.ofNat (87 + d.val)

def jsToString36 (digits : List (Fin 36)) : String :=
  if digits = [] then "0"
  else "0." ++ String.mk (digits.map base36Char)

def genQuestionId (digits : List (Fin 36)) : String :=
  (jsToString36 digits).drop 7

/-! ## The ask_user tool body

Lines 191-205 of src/index.ts, in statement order: generate the id,
overwrite `lastQuestionId`, await the send of the composed text (the
marker line followed by the question body), and only then - inside
the Promise executor, which runs when the Promise is constructed
after the await completes - insert the resolver into
`pendingQuestions`.  The body is embedded twice: as an event trace
recording that statement order, and as state-transformer steps for
the successful and the failing send. -/

def composeOutbound (id question : String) : String :=
  "#" ++ id ++ "\n" ++ question

inductive AskEvent where
  | setLast (id : String)
  | send (text : String)
  | insertPending (id : String)
  deriving Repr, DecidableEq

/-- The sequence of engine-visible events one successful `ask_user`
call performs, in the order the source performs them. -/
def askTrace (digits : List (Fin 36)) (question : String) : List AskEvent :=
  [ AskEvent.setLast (genQuestionId digits),
    AskEvent.send (composeOutbound (genQuestionId digits) question),
    AskEvent.insertPending (genQuestionId digits) ]

def applyAskEvent (st : EngineState) : AskEvent → EngineState
  | AskEvent.setLast id => { st with lastQuestionId := some id }
  | AskEvent.send _ => st
  | AskEvent.insertPending id =>
      { st with
        pendingQuestions := mapSet id st.nextResolver st.pendingQuestions
        nextResolver := st.nextResolver + 1 }

def replayAsk (st : EngineState) (evs : List AskEvent) : EngineState :=
  evs.foldl applyAskEvent st

/-- State after a completed, successful `ask_user` call (send did not
throw): `lastQuestionId` holds the fresh id and the resolver is
pending under it. -/
def askOk (st : EngineState) (digits : List (Fin 36)) : EngineState :=
  { pendingQuestions :=
      mapSet (genQuestionId digits) st.nextResolver st.pendingQuestions
    lastQuestionId := some (genQuestionId digits)
    nextResolver := st.nextResolver + 1 }

/-- State after an `ask_user` call whose `bot.sendMessage` rejected:
the error propagates out of the tool handler, after `lastQuestionId`
was overwritten but before `pendingQuestions.set` ran. -/
def askFail (st : EngineState) (digits : List (Fin 36)) : EngineState :=
  { st with lastQuestionId := some (genQuestionId digits) }

/-! ## zipProject size enforcement

Lines 158-166 of src/index.ts, after the archive stream has closed:
stat the artifact, and if it exceeds two gibibytes, unlink it and
then throw; otherwise return its path.  The branch is embedded as
the sequence of filesystem/control actions it performs, so that the
order of the unlink and the throw is part of the model. -/

def TWO_GB : Nat := 2 * 1024 * 1024 * 1024

inductive ZipAction where
  | unlink (path : String)
  | throwSizeError
  | returnPath (path : String)
  deriving Repr, DecidableEq

def zipSizeCheck (outputPath : String) (size : Nat) : List ZipAction :=
  if size > TWO_GB then
    [ZipAction.unlink outputPath, ZipAction.throwSizeError]
  else
    [ZipAction.returnPath outputPath]

/-- Whether the artifact file still exists once `zipProject` finishes
(it exists when the size check starts, and only `unlink` removes it). -/
def artifactRemains (actions : List ZipAction) : Bool :=
  !(actions.any (fun a =>
    match a with
    | ZipAction.unlink _ => true
    | _ => false))

def zipFails (actions : List ZipAction) : Bool :=
  actions.any (fun a =>
    match a with
    | ZipAction.throwSizeError => true
    | _ => false)

/-! ## The archive traversal

`addFilesFromDirectory` (lines 132-152): depth-first walk of the
working directory.  For every entry, the path relative to the
working directory is computed; an entry whose relative path starts
with the string ".git" is skipped before anything else; a directory
is recursed into; a file is added under its relative path unless the
ignore rules match it.  The directory tree is modelled as a value,
the ignore-rules matcher `ig` (the external `ignore` package) as an
abstract predicate on relative paths, and the archive as the list of
relative paths added, in traversal order. -/

inductive FsTree where
  | file (name : String)
  | dir (name : String) (entries : List FsTree)

/-- JS `String.prototype.startsWith`: character-wise prefix test
(`relativePath.startsWith('.git')` on line 139). -/
def jsStartsWith (s pre : String) : Bool :=
  pre.data.isPrefixOf s.data

/-- `path.relative(workingDir, fullPath)`: the name itself at the top
level, otherwise the parent's relative path, a separator and the
name. -/
def joinRel (pfx name : String) : String :=
  if pfx = "" then name else pfx ++ "/" ++ name

mutual

def addFilesEntry (ig : String → Bool) (pfx : String) : FsTree → List String
  | FsTree.file name =>
      let rel := joinRel pfx name
      if jsStartsWith rel ".git" then []
      else if ig rel then [] else [rel]
  | FsTree.dir name entries =>
      let rel := joinRel pfx name
      if jsStartsWith rel ".git" then []
      else addFilesList ig rel entries

/-- The archive contents produced by `addFilesFromDirectory` on a
directory whose entries are `ts`, reached at relative path `pfx`
(the empty string for the working directory itself). -/
def addFilesList (ig : String → Bool) (pfx : String) : List FsTree → List String
  | [] => []
  | t :: ts => addFilesEntry ig pfx t ++ addFilesList ig pfx ts

end

mutual

/-- Archiver contract read off the specification text: every file
under the root except those matched by the ignore rules and those
inside a directory named ".git" (the version-control metadata
directory).  Written from the spec's words, for comparison with
`addFilesList`. -/
def specFilesEntry (ig : String → Bool) (pfx : String) : FsTree → List String
  | FsTree.file name =>
      let rel := joinRel pfx name
      if ig rel then [] else [rel]
  | FsTree.dir name entries =>
      if name = ".git" then []
      else specFilesList ig (joinRel pfx name) entries

def specFilesList (ig : String → Bool) (pfx : String) : List FsTree → List String
  | [] => []
  | t :: ts => specFilesEntry ig pfx t ++ specFilesList ig pfx ts

end

mutual

/-- All files under a tree that the ignore rules do not match, with
no ".git" pruning at all; below the top level, the source's
traversal coincides with this (proved in `addFilesList_deep`). -/
def allFilesEntry (ig : String → Bool) (pfx : String) : FsTree → List String
  | FsTree.file name =>
      let rel := joinRel pfx name
      if ig rel then [] else [rel]
  | FsTree.dir name entries => allFilesList ig (joinRel pfx name) entries

def allFilesList (ig : String → Bool) (pfx : String) : List FsTree → List String
  | [] => []
  | t :: ts => allFilesEntry ig pfx t ++ allFilesList ig pfx ts

end

/-- What one top-level entry contributes to the archive: skipped
wholesale when its name starts with ".git", otherwise the file (when
not ignored) or the whole subtree minus ignored files. -/
def topEntryFiles (ig : String → Bool) : FsTree → List String
  | FsTree.file name =>
      if jsStartsWith name ".git" then []
      else if ig name then [] else [name]
  | FsTree.dir name entries =>
      if jsStartsWith name ".git" then []
      else allFilesList ig name entries

/-- `ts.flatMap (topEntryFiles ig)`, spelled out recursively: the
whole-archive contents described entry by entry at the top level. -/
def topFilesList (ig : String → Bool) : List FsTree → List String
  | [] => []
  | t :: ts => topEntryFiles ig t ++ topFilesList ig ts

mutual

/-- Every entry name in the tree is nonempty, as `fs.readdirSync`
guarantees for real directory listings. -/
def wfEntry : FsTree → Bool
  | FsTree.file name => name ≠ ""
  | FsTree.dir name entries => name ≠ "" && wfList entries

def wfList : List FsTree → Bool
  | [] => true
  | t :: ts => wfEntry t && wfList ts

end

/-! ## Concrete random draws used in counterexamples and witnesses

Each is the canonical base-36 fractional expansion of a double in
[0,1) that `Math.random()` can return. -/

/-- The draw 0.5: base 36 `0.i`, so `toString(36)` is `"0.i"` and
`substring(7)` is empty. -/
def drawHalf : List (Fin 36) := [18]

/-- A draw whose base-36 expansion is `0.00000x`: the generated id is
`"x"`. -/
def drawX : List (Fin 36) := [0, 0, 0, 0, 0, 33]

/-- A draw whose base-36 expansion is `0.00000y`: the generated id is
`"y"`. -/
def drawY : List (Fin 36) := [0, 0, 0, 0, 0, 34]

/-- A draw whose base-36 expansion is `0.00000k7f2a`: the generated
id is `"k7f2a"`. -/
def drawK7f2a : List (Fin 36) := [0, 0, 0, 0, 0, 20, 7, 15, 2, 10]

/-! ## Lemmas about the Map model -/

theorem mapGet_mapSet_self (k : String) (v : Nat) (m : List (String × Nat)) :
    mapGet k (mapSet k v m) = some v := by
  induction m with
  | nil => simp [mapGet, mapSet]
  | cons p m ih =>
    by_cases hp : p.1 = k
    · simp [mapGet, mapSet, hp]
    · simpa [mapGet, mapSet, hp] using ih

theorem mapGet_mapSet_ne (k k' : String) (v : Nat) (m : List (String × Nat))
    (h : k' ≠ k) : mapGet k' (mapSet k v m) = mapGet k' m := by
  induction m with
  | nil => simp [mapGet, mapSet, Ne.symm h]
  | cons p m ih =>
    by_cases hp : p.1 = k
    · simp [mapGet, mapSet, hp, Ne.symm h]
    · by_cases hp' : p.1 = k'
      · simp [mapGet, mapSet, hp, hp', h]
      · simpa [mapGet, mapSet, hp, hp'] using ih

theorem mapGet_mapDelete_self (k : String) (m : List (String × Nat)) :
    mapGet k (mapDelete k m) = none := by
  induction m with
  | nil => simp [mapGet, mapDelete]
  | cons p m ih =>
    by_cases hp : p.1 = k
    · simpa [mapDelete, hp] using ih
    · simpa [mapGet, mapDelete, hp] using ih

theorem mapGet_mapDelete_ne (k k' : String) (m : List (String × Nat))
    (h : k' ≠ k) : mapGet k' (mapDelete k m) = mapGet k' m := by
  induction m with
  | nil => simp [mapGet, mapDelete]
  | cons p m ih =>
    by_cases hp : p.1 = k
    · simpa [mapGet, mapDelete, List.filter_cons, hp, Ne.symm h] using ih
    · by_cases hp' : p.1 = k'
      · simp [mapGet, mapDelete, List.filter_cons, hp, hp', h]
      · simpa [mapGet, mapDelete, List.filter_cons, hp, hp'] using ih

/-! ## Lemmas about the marker scanner -/

theorem takeWhile_all_stop {p : Char → Bool} (l l2 : List Char) (c0 : Char)
    (hall : ∀ c ∈ l, p c = true) (hc : p c0 = false) :
    (l ++ c0 :: l2).takeWhile p = l := by
  induction l with
  | nil => simp [List.takeWhile, hc]
  | cons a l ih =>
    have ha : p a = true := hall a (by simp)
    simp only [List.cons_append, List.takeWhile, ha]
    exact congrArg (a :: ·) (ih (fun c hc' => hall c (by simp [hc'])))

theorem dropWhile_all_stop {p : Char → Bool} (l l2 : List Char) (c0 : Char)
    (hall : ∀ c ∈ l, p c = true) (hc : p c0 = false) :
    (l ++ c0 :: l2).dropWhile p = c0 :: l2 := by
  induction l with
  | nil => simp [List.dropWhile, hc]
  | cons a l ih =>
    have ha : p a = true := hall a (by simp)
    simp only [List.cons_append, List.dropWhile, ha]
    exact ih (fun c hc' => hall c (by simp [hc']))

theorem scanMarkerAux_ne_empty (l : List Char) (q : String)
    (h : scanMarkerAux l = some q) : q ≠ "" := by
  induction l with
  | nil => simp [scanMarkerAux] at h
  | cons c rest ih =>
    by_cases hc : c = '#'
    · rw [scanMarkerAux, if_pos hc] at h
      split at h
      next hcond =>
        have hq : q = String.mk (rest.takeWhile isIdChar) := by
          simpa using h.symm
        subst hq
        intro hbad
        have hnil : (rest.takeWhile isIdChar) = ([] : List Char) := by
          have := congrArg String.data hbad
          simpa using this
        exact hcond.1 hnil
      next hcond => exact ih h
    · rw [scanMarkerAux, if_neg hc] at h
      exact ih h

theorem scanMarker_ne_empty (s : String) (q : String)
    (h : scanMarker s = some q) : q ≠ "" :=
  scanMarkerAux_ne_empty s.data q h

/-- The round trip at the heart of the correlation scheme: a
non-empty id made of marker-alphabet characters, embedded by
`composeOutbound`, is recovered by the scanner no matter what the
question body is. -/
theorem scanMarker_composeOutbound (id q : String) (hne : id ≠ "")
    (hall : ∀ c ∈ id.data, isIdChar c = true) :
    scanMarker (composeOutbound id q) = some id := by
  have hdata : (composeOutbound id q).data = '#' :: (id.data ++ '\n' :: q.data) := by
    simp [composeOutbound, String.data_append]
  have hnl : isIdChar '\n' = false := by decide
  have htake : (id.data ++ '\n' :: q.data).takeWhile isIdChar = id.data :=
    takeWhile_all_stop _ _ _ hall hnl
  have hdrop : (id.data ++ '\n' :: q.data).dropWhile isIdChar = '\n' :: q.data :=
    dropWhile_all_stop _ _ _ hall hnl
  have hid : id.data ≠ [] := by
    intro hbad
    exact hne (String.ext hbad)
  rw [scanMarker, hdata, scanMarkerAux, if_pos rfl, htake, hdrop,
    if_pos ⟨hid, rfl⟩]

/-! ## Lemmas about handleMessage -/

/-- Every `handleMessage` call either discards the message, leaving
the state untouched, or resolves exactly one pending entry: the
target id, non-empty and present in the map; the entry is removed
and `lastQuestionId` is nulled. -/
theorem handleMessage_cases (cid : String) (st : EngineState) (msg : Message) :
    handleMessage cid st msg = { state := st, resolved := none } ∨
    (∃ q r a, targetId st msg = some q ∧ q ≠ "" ∧
      mapGet q st.pendingQuestions = some r ∧ msg.text = some a ∧
      handleMessage cid st msg =
        { state :=
            { pendingQuestions := mapDelete q st.pendingQuestions
              lastQuestionId := none
              nextResolver := st.nextResolver }
          resolved := some (q, r, a) }) := by
  obtain ⟨mchat, mtext, mreply⟩ := msg
  cases mtext with
  | none => exact Or.inl rfl
  | some t =>
    unfold handleMessage
    dsimp only
    by_cases hrej : (¬ mchat = cid ∨ t = "")
    · exact Or.inl (by rw [if_pos hrej])
    · rw [if_neg hrej]
      cases htgt : targetId st { chatId := mchat, text := some t, replyToText := mreply } with
      | none => exact Or.inl rfl
      | some q =>
        dsimp only
        by_cases hq : q = ""
        · exact Or.inl (by rw [if_neg (fun h => h hq)])
        · cases hget : mapGet q st.pendingQuestions with
          | none =>
            refine Or.inl ?_
            rw [if_pos hq]
          | some r =>
            refine Or.inr ⟨q, r, t, rfl, hq, hget, rfl, ?_⟩
            rw [if_pos hq]

theorem handleMessage_hit (cid : String) (st : EngineState) (msg : Message)
    (q a : String) (r : Nat)
    (hchat : msg.chatId = cid) (htext : msg.text = some a) (ha : a ≠ "")
    (htgt : targetId st msg = some q) (hq : q ≠ "")
    (hget : mapGet q st.pendingQuestions = some r) :
    handleMessage cid st msg =
      { state :=
          { pendingQuestions := mapDelete q st.pendingQuestions
            lastQuestionId := none
            nextResolver := st.nextResolver }
        resolved := some (q, r, a) } := by
  obtain ⟨mchat, mtext, mreply⟩ := msg
  simp only [Message.text] at htext
  simp only [Message.chatId] at hchat
  subst htext
  subst hchat
  unfold handleMessage
  dsimp only
  rw [if_neg (fun h => h.elim (fun h1 => h1 rfl) ha), htgt]
  dsimp only
  rw [if_pos hq, hget]

theorem handleMessage_miss (cid : String) (st : EngineState) (msg : Message)
    (q : String) (htgt : targetId st msg = some q)
    (hget : mapGet q st.pendingQuestions = none) :
    handleMessage cid st msg = { state := st, resolved := none } := by
  obtain ⟨mchat, mtext, mreply⟩ := msg
  cases mtext with
  | none => rfl
  | some t =>
    unfold handleMessage
    dsimp only
    by_cases hrej : (¬ mchat = cid ∨ t = "")
    · rw [if_pos hrej]
    · rw [if_neg hrej, htgt]
      dsimp only
      by_cases hq : q = ""
      · rw [if_neg (fun h => h hq)]
      · rw [if_pos hq, hget]

theorem targetId_of_reply (st : EngineState) (msg : Message) (q : String)
    (h : replyQuestionId msg = some q) : targetId st msg = some q := by
  unfold targetId
  rw [h]

theorem targetId_of_fallback (st : EngineState) (msg : Message)
    (h : replyQuestionId msg = none) : targetId st msg = st.lastQuestionId := by
  unfold targetId
  rw [h]

/-! ## Lemmas about the archive traversal -/

theorem git_isPrefixOf_append (L rest : List Char) (hne : L ≠ [])
    (h : ['.', 'g', 'i', 't'].isPrefixOf L = false) :
    ['.', 'g', 'i', 't'].isPrefixOf (L ++ '/' :: rest) = false := by
  have hgs : (('g' : Char) == '/') = false := by decide
  have his : (('i' : Char) == '/') = false := by decide
  have hts : (('t' : Char) == '/') = false := by decide
  match L with
  | [] => exact absurd rfl hne
  | [a] => simp [List.isPrefixOf, hgs]
  | [a, b] => simp [List.isPrefixOf, his]
  | [a, b, c] => simp [List.isPrefixOf, hts]
  | a :: b :: c :: d :: l =>
    simp only [List.isPrefixOf, List.cons_append] at h ⊢
    simpa using h

/-- Below the top level of the traversal, the ".git" skip can never
fire again: once the parent's relative path does not start with
".git", no child relative path can either, because "/" is not a
character of ".git". -/
theorem jsStartsWith_git_append (pfx name : String) (hne : pfx ≠ "")
    (h : jsStartsWith pfx ".git" = false) :
    jsStartsWith (pfx ++ "/" ++ name) ".git" = false := by
  unfold jsStartsWith at h ⊢
  have hdata : (pfx ++ "/" ++ name).data = pfx.data ++ '/' :: name.data := by
    simp [String.data_append]
  rw [hdata]
  have hpd : pfx.data ≠ [] := fun hx => hne (String.ext hx)
  exact git_isPrefixOf_append pfx.data name.data hpd h

theorem joinRel_ne_empty (pfx name : String) (hne : pfx ≠ "") :
    joinRel pfx name ≠ "" := by
  unfold joinRel
  rw [if_neg hne]
  intro hbad
  have hd := congrArg String.data hbad
  simp [String.data_append] at hd

mutual

theorem addFilesEntry_deep (ig : String → Bool) (pfx : String) (t : FsTree)
    (hne : pfx ≠ "") (hgit : jsStartsWith pfx ".git" = false) :
    addFilesEntry ig pfx t = allFilesEntry ig pfx t := by
  cases t with
  | file name =>
    unfold addFilesEntry allFilesEntry
    rw [if_neg (by
      rw [show joinRel pfx name = pfx ++ "/" ++ name from if_neg hne]
      simp [jsStartsWith_git_append pfx name hne hgit])]
  | dir name entries =>
    unfold addFilesEntry allFilesEntry
    rw [if_neg (by
      rw [show joinRel pfx name = pfx ++ "/" ++ name from if_neg hne]
      simp [jsStartsWith_git_append pfx name hne hgit])]
    exact addFilesList_deep ig (joinRel pfx name) entries
      (joinRel_ne_empty pfx name hne)
      (by rw [show joinRel pfx name = pfx ++ "/" ++ name from if_neg hne]
          exact jsStartsWith_git_append pfx name hne hgit)

theorem addFilesList_deep (ig : String → Bool) (pfx : String) (ts : List FsTree)
    (hne : pfx ≠ "") (hgit : jsStartsWith pfx ".git" = false) :
    addFilesList ig pfx ts = allFilesList ig pfx ts := by
  cases ts with
  | nil => rfl
  | cons t ts =>
    unfold addFilesList allFilesList
    rw [addFilesEntry_deep ig pfx t hne hgit,
      addFilesList_deep ig pfx ts hne hgit]

end

/-- The archive's contents, characterised: every top-level entry
whose name starts with ".git" is skipped wholesale; everything else
contributes its non-ignored files, with no further ".git" pruning
below the top level. -/
theorem addFilesList_top (ig : String → Bool) (ts : List FsTree)
    (h : wfList ts = true) :
    addFilesList ig "" ts = topFilesList ig ts := by
  induction ts with
  | nil => rfl
  | cons t ts ih =>
    have hw : wfEntry t = true ∧ wfList ts = true := by
      simpa [wfList, Bool.and_eq_true] using h
    unfold addFilesList topFilesList
    rw [ih hw.2]
    congr 1
    cases t with
    | file name =>
      simp only [addFilesEntry, topEntryFiles,
        show joinRel "" name = name from if_pos rfl]
    | dir name entries =>
      have hname : name ≠ "" := by
        have hwe := hw.1
        simp only [wfEntry, Bool.and_eq_true, decide_eq_true_eq] at hwe
        exact hwe.1
      simp only [addFilesEntry, topEntryFiles,
        show joinRel "" name = name from if_pos rfl]
      by_cases hg : jsStartsWith name ".git" = true
      · rw [if_pos hg, if_pos hg]
      · have hg' : jsStartsWith name ".git" = false := by
          simpa using hg
        rw [if_neg (by simp [hg']), if_neg (by simp [hg'])]
        exact addFilesList_deep ig name entries hname hg'

/-! ## Lemmas about id generation -/

theorem isIdChar_base36Char (d : Fin 36) : isIdChar (base36Char d) = true := by
  revert d
  decide

/-- The generated correlation id is the base-36 rendering of the
draw's digits past the fifth: `toString(36)` prints a zero, a point
and the digits, and `substring(7)` discards the first seven
characters, i.e. the prelude and five digits. -/
theorem genQuestionId_eq (d : List (Fin 36)) (h : d ≠ []) :
    genQuestionId d = String.mk ((d.map base36Char).drop 5) := by
  unfold genQuestionId jsToString36
  rw [if_neg h]
  apply String.ext
  simp [String.data_append]

theorem genQuestionId_chars (d : List (Fin 36)) (c : Char)
    (hc : c ∈ (genQuestionId d).data) : isIdChar c = true := by
  by_cases h : d = []
  · subst h
    simp [genQuestionId, jsToString36] at hc
  · rw [genQuestionId_eq d h] at hc
    simp at hc
    obtain ⟨x, _, hx⟩ := (List.mem_map.mp (List.mem_of_mem_drop hc))
    rw [← hx]
    exact isIdChar_base36Char x

/-! ## The claims -/

/-- C1: counterexample.  The claim says `lastQuestionId` is cleared
only when the resolved question's id equals the current
`lastQuestionId`, and left unchanged otherwise.  With q1 and q2
pending and `lastQuestionId = "q2"`, a reply threaded to q1's marker
resolves q1 - an id different from "q2" - yet `lastQuestionId` does
not remain `some "q2"`: line 70 nulls it unconditionally. -/
theorem C1_counterexample :
    (handleMessage "op"
        { pendingQuestions := [("q1", 0), ("q2", 1)]
          lastQuestionId := some "q2"
          nextResolver := 2 }
        { chatId := "op", text := some "ans",
          replyToText := some "#q1\nfoo" }).resolved =
      some ("q1", 0, "ans") ∧
    ("q1" : String) ≠ "q2" ∧
    (handleMessage "op"
        { pendingQuestions := [("q1", 0), ("q2", 1)]
          lastQuestionId := some "q2"
          nextResolver := 2 }
        { chatId := "op", text := some "ans",
          replyToText := some "#q1\nfoo" }).state.lastQuestionId ≠
      some "q2" := by
  decide

/-- C1 (amended): whenever `handleMessage` resolves a pending
question, it nulls `lastQuestionId` unconditionally - in particular
also when the resolved question's id differs from the current
`lastQuestionId`. -/
theorem C1_amended (cid : String) (st : EngineState) (msg : Message)
    (h : ((handleMessage cid st msg).resolved).isSome = true) :
    (handleMessage cid st msg).state.lastQuestionId = none := by
  rcases handleMessage_cases cid st msg with hL | ⟨q, r, a, _, _, _, _, hR⟩
  · rw [hL] at h
    simp at h
  · rw [hR]

/-- C1 (amended) witness: a fallback-matched reply resolves the only
pending question and `lastQuestionId` ends up cleared. -/
theorem C1_amended_witness :
    ((handleMessage "op"
        { pendingQuestions := [("q1", 0)]
          lastQuestionId := some "q1"
          nextResolver := 1 }
        { chatId := "op", text := some "ans",
          replyToText := none }).resolved).isSome = true ∧
    (handleMessage "op"
        { pendingQuestions := [("q1", 0)]
          lastQuestionId := some "q1"
          nextResolver := 1 }
        { chatId := "op", text := some "ans",
          replyToText := none }).state.lastQuestionId = none :=
  ⟨by decide, C1_amended "op" _ _ (by decide)⟩

/-- C2: counterexample.  The draw `drawK7f2a` generates id "k7f2a";
in the event trace of that `ask_user` call, the send is the second
event and the insertion into the pending set only the third, and
replaying the trace up to and including the send from the empty
engine state leaves the pending set without any entry for the id -
contradicting the claim that the set already holds the entry when
the outbound message is handed to the channel. -/
theorem C2_counterexample :
    genQuestionId drawK7f2a = "k7f2a" ∧
    (askTrace drawK7f2a "What is your name?").get? 1 =
      some (AskEvent.send (composeOutbound "k7f2a" "What is your name?")) ∧
    (askTrace drawK7f2a "What is your name?").get? 2 =
      some (AskEvent.insertPending "k7f2a") ∧
    mapHas "k7f2a"
      (replayAsk initState
        ((askTrace drawK7f2a "What is your name?").take 2)).pendingQuestions =
      false := by
  decide

/-- C2 (amended): `ask_user` overwrites `lastQuestionId`, then sends
the composed text, and only after the send completes inserts the
resolver under the fresh id; once the whole call completes the
pending set does contain the entry. -/
theorem C2_amended (st : EngineState) (d : List (Fin 36)) (q : String) :
    askTrace d q =
      [AskEvent.setLast (genQuestionId d),
       AskEvent.send (composeOutbound (genQuestionId d) q),
       AskEvent.insertPending (genQuestionId d)] ∧
    replayAsk st (askTrace d q) = askOk st d ∧
    mapGet (genQuestionId d) (askOk st d).pendingQuestions =
      some st.nextResolver :=
  ⟨rfl, rfl, mapGet_mapSet_self _ _ _⟩

/-- C3: threaded correlation.  With a question pending under id
"abc123" (outbound text "#abc123\nWhat is your name?"), an operator
message quoting that text with body "Ada" resolves exactly that
question's resolver with "Ada" and removes its entry - for every
pending set containing the entry and every `lastQuestionId`. -/
theorem C3_threaded_correlation (cid : String) (st : EngineState) (r : Nat)
    (hget : mapGet "abc123" st.pendingQuestions = some r) :
    handleMessage cid st
      { chatId := cid, text := some "Ada",
        replyToText := some "#abc123\nWhat is your name?" } =
      { state :=
          { pendingQuestions := mapDelete "abc123" st.pendingQuestions
            lastQuestionId := none
            nextResolver := st.nextResolver }
        resolved := some ("abc123", r, "Ada") } ∧
    mapGet "abc123" (mapDelete "abc123" st.pendingQuestions) = none := by
  constructor
  · exact handleMessage_hit cid st _ "abc123" "Ada" r rfl rfl (by decide)
      (targetId_of_reply st _ "abc123" rfl) (by decide) hget
  · exact mapGet_mapDelete_self _ _

/-- C3 witness: concrete pending set with a second question and a
stale `lastQuestionId`. -/
theorem C3_threaded_correlation_witness :
    mapGet "abc123" [("zzz", 7), ("abc123", 5)] = some 5 ∧
    handleMessage "op"
      { pendingQuestions := [("zzz", 7), ("abc123", 5)]
        lastQuestionId := some "zzz"
        nextResolver := 9 }
      { chatId := "op", text := some "Ada",
        replyToText := some "#abc123\nWhat is your name?" } =
      { state :=
          { pendingQuestions := [("zzz", 7)]
            lastQuestionId := none
            nextResolver := 9 }
        resolved := some ("abc123", 5, "Ada") } :=
  ⟨by decide,
    ((C3_threaded_correlation "op"
      { pendingQuestions := [("zzz", 7), ("abc123", 5)]
        lastQuestionId := some "zzz"
        nextResolver := 9 } 5 (by decide)).1).trans (by decide)⟩

/-- C4: fallback ambiguity.  After asking q1 then q2 (both pending,
distinct ids, q2's id non-empty as every marker-legible id is), an
un-threaded operator reply resolves only q2, with the message text;
q1's entry survives with its resolver token. -/
theorem C4_fallback_ambiguity (cid : String) (st : EngineState)
    (d1 d2 : List (Fin 36)) (msg : Message) (t : String)
    (hne : genQuestionId d1 ≠ genQuestionId d2)
    (h2ne : genQuestionId d2 ≠ "")
    (hchat : msg.chatId = cid) (htext : msg.text = some t) (ht : t ≠ "")
    (hrep : replyQuestionId msg = none) :
    handleMessage cid (askOk (askOk st d1) d2) msg =
      { state :=
          { pendingQuestions :=
              mapDelete (genQuestionId d2)
                (askOk (askOk st d1) d2).pendingQuestions
            lastQuestionId := none
            nextResolver := st.nextResolver + 1 + 1 }
        resolved := some (genQuestionId d2, st.nextResolver + 1, t) } ∧
    mapGet (genQuestionId d1)
      (mapDelete (genQuestionId d2)
        (askOk (askOk st d1) d2).pendingQuestions) =
      some st.nextResolver := by
  constructor
  · exact handleMessage_hit cid _ msg (genQuestionId d2) t
      (st.nextResolver + 1) hchat htext ht
      ((targetId_of_fallback _ msg hrep).trans rfl) h2ne
      (mapGet_mapSet_self _ _ _)
  · rw [show (askOk (askOk st d1) d2).pendingQuestions =
        mapSet (genQuestionId d2) (st.nextResolver + 1)
          (mapSet (genQuestionId d1) st.nextResolver st.pendingQuestions)
      from rfl]
    rw [mapGet_mapDelete_ne _ _ _ hne, mapGet_mapSet_ne _ _ _ _ hne,
      mapGet_mapSet_self]

/-- C4 witness: ids "x" then "y" asked from the empty state; the
un-threaded reply "Ada" resolves "y" and leaves "x" pending. -/
theorem C4_fallback_ambiguity_witness :
    handleMessage "op" (askOk (askOk initState drawX) drawY)
      { chatId := "op", text := some "Ada", replyToText := none } =
      { state :=
          { pendingQuestions :=
              mapDelete (genQuestionId drawY)
                (askOk (askOk initState drawX) drawY).pendingQuestions
            lastQuestionId := none
            nextResolver := 0 + 1 + 1 }
        resolved := some (genQuestionId drawY, 0 + 1, "Ada") } ∧
    mapGet (genQuestionId drawX)
      (mapDelete (genQuestionId drawY)
        (askOk (askOk initState drawX) drawY).pendingQuestions) =
      some 0 :=
  C4_fallback_ambiguity "op" initState drawX drawY _ "Ada"
    (by decide) (by decide) rfl rfl (by decide) rfl

/-- C5: at-most-once resolution.  If a message resolves the question
with id `q` (its resolver was live in the set), the entry is gone
from the successor state, and any second message threaded to the
same id resolves nothing and leaves the state unchanged - the
resolver is never invoked twice. -/
theorem C5_at_most_once (cid : String) (st : EngineState)
    (msg msg2 : Message) (q a : String) (r : Nat)
    (h1 : (handleMessage cid st msg).resolved = some (q, r, a))
    (h2 : replyQuestionId msg2 = some q) :
    mapGet q st.pendingQuestions = some r ∧
    mapGet q (handleMessage cid st msg).state.pendingQuestions = none ∧
    handleMessage cid (handleMessage cid st msg).state msg2 =
      { state := (handleMessage cid st msg).state, resolved := none } := by
  rcases handleMessage_cases cid st msg with
    hL | ⟨q', r', a', htgt, hq', hget', htext', hR⟩
  · rw [hL] at h1
    simp at h1
  · rw [hR] at h1
    simp only [Option.some.injEq, Prod.mk.injEq] at h1
    obtain ⟨hqq, hrr, haa⟩ := h1
    subst hqq
    subst hrr
    subst haa
    refine ⟨hget', ?_, ?_⟩
    · rw [hR]
      exact mapGet_mapDelete_self _ _
    · rw [hR]
      exact handleMessage_miss cid _ msg2 _
        (targetId_of_reply _ msg2 _ h2)
        (mapGet_mapDelete_self _ _)

/-- C5 witness: after "#ab"'s question is resolved with "hi", a
second reply threaded to the same marker is discarded. -/
theorem C5_at_most_once_witness :
    mapGet "ab" [("ab", 0)] = some 0 ∧
    mapGet "ab" (handleMessage "op"
      { pendingQuestions := [("ab", 0)]
        lastQuestionId := none
        nextResolver := 1 }
      { chatId := "op", text := some "hi",
        replyToText := some "#ab\nQ" }).state.pendingQuestions = none ∧
    handleMessage "op"
      (handleMessage "op"
        { pendingQuestions := [("ab", 0)]
          lastQuestionId := none
          nextResolver := 1 }
        { chatId := "op", text := some "hi",
          replyToText := some "#ab\nQ" }).state
      { chatId := "op", text := some "again",
        replyToText := some "#ab\nQ" } =
      { state := (handleMessage "op"
          { pendingQuestions := [("ab", 0)]
            lastQuestionId := none
            nextResolver := 1 }
          { chatId := "op", text := some "hi",
            replyToText := some "#ab\nQ" }).state
        resolved := none } :=
  C5_at_most_once "op"
    { pendingQuestions := [("ab", 0)]
      lastQuestionId := none
      nextResolver := 1 }
    { chatId := "op", text := some "hi", replyToText := some "#ab\nQ" }
    { chatId := "op", text := some "again", replyToText := some "#ab\nQ" }
    "ab" "hi" 0 (by decide) (by decide)

/-- C6: counterexample.  The generator never consults the pending
set: the draw `drawX` yields id "x" even when "x" is already a key
of the pending set, and the colliding ask overwrites the existing
entry, orphaning the first caller's resolver - so a generated id is
not guaranteed distinct from the ids currently present. -/
theorem C6_counterexample :
    genQuestionId drawX = "x" ∧
    mapHas "x" [("x", 0)] = true ∧
    (askOk { pendingQuestions := [("x", 0)]
             lastQuestionId := none
             nextResolver := 1 } drawX).pendingQuestions = [("x", 1)] := by
  decide

/-- C6 (amended): the correlation id is a pure function of the
random draw - the base-36 characters of the digits past the fifth -
computed with no distinctness check against the pending set; two
draws yield equal (colliding) ids exactly when those digit suffixes
agree, so distinctness holds only when the draws differ there. -/
theorem C6_amended (d1 d2 : List (Fin 36)) (h1 : d1 ≠ []) (h2 : d2 ≠ []) :
    genQuestionId d1 = String.mk ((d1.map base36Char).drop 5) ∧
    (genQuestionId d1 = genQuestionId d2 ↔
      (d1.map base36Char).drop 5 = (d2.map base36Char).drop 5) := by
  refine ⟨genQuestionId_eq d1 h1, ?_⟩
  rw [genQuestionId_eq d1 h1, genQuestionId_eq d2 h2]
  constructor
  · intro h
    have hd := congrArg String.data h
    simpa using hd
  · intro h
    exact congrArg String.mk h

/-- C6 (amended) witness at the draws for "x" and "y". -/
theorem C6_amended_witness :
    genQuestionId drawX = String.mk ((drawX.map base36Char).drop 5) ∧
    (genQuestionId drawX = genQuestionId drawY ↔
      (drawX.map base36Char).drop 5 = (drawY.map base36Char).drop 5) :=
  C6_amended drawX drawY (by decide) (by decide)

/-- C7: counterexample.  The draw 0.5 renders as "0.i", so
`substring(7)` yields the empty id; the composed outbound text is
"#" followed directly by the newline and the scanner finds no marker
in it - the generated id is not a non-empty token the pattern can
match, and the round trip fails. -/
theorem C7_counterexample :
    genQuestionId drawHalf = "" ∧
    scanMarker (composeOutbound (genQuestionId drawHalf)
      "What is your name?") = none := by
  decide

/-- C7 (amended): every draw whose generated id is non-empty round
trips: the scanner recovers exactly the id from the composed
outbound text, whatever the question body. -/
theorem C7_amended (d : List (Fin 36)) (q : String)
    (h : genQuestionId d ≠ "") :
    scanMarker (composeOutbound (genQuestionId d) q) =
      some (genQuestionId d) :=
  scanMarker_composeOutbound (genQuestionId d) q h (genQuestionId_chars d)

/-- C7 (amended) witness: the draw for "x", recovered by the
scanner. -/
theorem C7_amended_witness :
    genQuestionId drawX ≠ "" ∧
    scanMarker (composeOutbound (genQuestionId drawX)
      "What is your name?") = some (genQuestionId drawX) :=
  ⟨by decide, C7_amended drawX "What is your name?" (by decide)⟩

/-- C8: when the artifact exceeds the 2 GiB bound, `zipProject`
first unlinks the artifact and then throws the size-limit error:
the unlink strictly precedes the throw in the action sequence, the
run fails with the size-limit error, and no artifact file remains. -/
theorem C8_size_limit (p : String) (size : Nat) (h : size > TWO_GB) :
    zipSizeCheck p size = [ZipAction.unlink p, ZipAction.throwSizeError] ∧
    zipFails (zipSizeCheck p size) = true ∧
    artifactRemains (zipSizeCheck p size) = false := by
  unfold zipSizeCheck
  rw [if_pos h]
  exact ⟨rfl, rfl, rfl⟩

/-- C8 witness: a 3 GiB artifact. -/
theorem C8_size_limit_witness :
    3221225472 > TWO_GB ∧
    zipSizeCheck "my-project.zip" 3221225472 =
      [ZipAction.unlink "my-project.zip", ZipAction.throwSizeError] ∧
    zipFails (zipSizeCheck "my-project.zip" 3221225472) = true ∧
    artifactRemains (zipSizeCheck "my-project.zip" 3221225472) = false :=
  ⟨by decide, C8_size_limit "my-project.zip" 3221225472 (by decide)⟩

/-- C9: counterexample.  With empty ignore rules, the traversal
skips the top-level file ".gitattributes" - a file that is neither
matched by the ignore rules nor inside the ".git" metadata directory
- because line 139 skips every relative path that starts with the
string ".git".  The spec-side contract `specFilesList` keeps it, so
the archive does not contain exactly the claimed files. -/
theorem C9_counterexample :
    addFilesList (fun _ => false) ""
      [FsTree.file ".gitattributes", FsTree.file "a.txt"] = ["a.txt"] ∧
    specFilesList (fun _ => false) ""
      [FsTree.file ".gitattributes", FsTree.file "a.txt"] =
      [".gitattributes", "a.txt"] ∧
    addFilesList (fun _ => false) ""
        [FsTree.file ".gitattributes", FsTree.file "a.txt"] ≠
      specFilesList (fun _ => false) ""
        [FsTree.file ".gitattributes", FsTree.file "a.txt"] := by
  decide

/-- C9 (amended): the archive contains exactly the files the ignore
rules do not match, except that every top-level entry whose name
starts with the string ".git" (the .git directory, but also files
and directories such as .gitignore, .gitattributes or .github) is
skipped wholesale; below the top level no ".git" pruning occurs. -/
theorem C9_amended (ig : String → Bool) (ts : List FsTree)
    (h : wfList ts = true) :
    addFilesList ig "" ts = topFilesList ig ts :=
  addFilesList_top ig ts h

/-- C9 (amended) witness: a tree with a nested ".gitkeep" (kept, no
deep pruning), a top-level ".gitattributes" (skipped) and an ignored
file. -/
theorem C9_amended_witness :
    wfList [FsTree.file ".gitattributes",
      FsTree.dir "src" [FsTree.file ".gitkeep", FsTree.file "main.ts"],
      FsTree.file "a.txt"] = true ∧
    addFilesList (fun rel => rel = "src/main.ts") ""
      [FsTree.file ".gitattributes",
        FsTree.dir "src" [FsTree.file ".gitkeep", FsTree.file "main.ts"],
        FsTree.file "a.txt"] =
      topFilesList (fun rel => rel = "src/main.ts")
        [FsTree.file ".gitattributes",
          FsTree.dir "src" [FsTree.file ".gitkeep", FsTree.file "main.ts"],
          FsTree.file "a.txt"] :=
  ⟨by decide,
    C9_amended (fun rel => rel = "src/main.ts")
      [FsTree.file ".gitattributes",
        FsTree.dir "src" [FsTree.file ".gitkeep", FsTree.file "main.ts"],
        FsTree.file "a.txt"] (by decide)⟩

/-- C10: `ask_user` is not atomic on send failure.  After a failing
send, `lastQuestionId` already holds the fresh id while the pending
set is unchanged and holds no entry for it; consequently every
un-threaded inbound reply falls back to that absent id and is
discarded, leaving the state untouched - so no previously pending
question can be reached through fallback matching until the next
ask. -/
theorem C10_send_failure (cid : String) (st : EngineState)
    (d : List (Fin 36)) (msg : Message)
    (hfresh : mapGet (genQuestionId d) st.pendingQuestions = none)
    (hrep : replyQuestionId msg = none) :
    (askFail st d).lastQuestionId = some (genQuestionId d) ∧
    (askFail st d).pendingQuestions = st.pendingQuestions ∧
    handleMessage cid (askFail st d) msg =
      { state := askFail st d, resolved := none } := by
  refine ⟨rfl, rfl, ?_⟩
  exact handleMessage_miss cid _ msg _
    ((targetId_of_fallback _ msg hrep).trans rfl) hfresh

/-- C10 witness: a failing ask with draw "x" over a state with one
pending question "old"; the un-threaded reply "hello" is
discarded. -/
theorem C10_send_failure_witness :
    (askFail { pendingQuestions := [("old", 3)]
               lastQuestionId := some "old"
               nextResolver := 4 } drawX).lastQuestionId =
      some (genQuestionId drawX) ∧
    (askFail { pendingQuestions := [("old", 3)]
               lastQuestionId := some "old"
               nextResolver := 4 } drawX).pendingQuestions =
      [("old", 3)] ∧
    handleMessage "op"
      (askFail { pendingQuestions := [("old", 3)]
                 lastQuestionId := some "old"
                 nextResolver := 4 } drawX)
      { chatId := "op", text := some "hello", replyToText := none } =
      { state := askFail { pendingQuestions := [("old", 3)]
                           lastQuestionId := some "old"
                           nextResolver := 4 } drawX
        resolved := none } :=
  C10_send_failure "op"
    { pendingQuestions := [("old", 3)]
      lastQuestionId := some "old"
      nextResolver := 4 } drawX
    { chatId := "op", text := some "hello", replyToText := none }
    (by decide) rfl

end Telegram
